import Mathlib

/-!
Shallow embedding of the gourmet network-sensor core: the Connection record
and its analyzer dispatch loop (`Connection.analyze`), and the startup
validation and plugin-manager functions of `cmd/main.go`
(`validateSnapshotLength`, `convertIfaceType`, `newAnalyzers`).

Analyzer result payloads are opaque to the core, so the embedding is
parametric in a payload type `α`.  Go errors are modelled as `String`
(the message observable through `err.Error()`), the Results map
(`map[string]interface{}`) as a total function `String → Option (AResult α)`,
and Go's in-place mutation of the record as explicit state passing.
-/

namespace Gourmet

/-- Result value produced by an analyzer.  In the source this is an
`interface{}` value that exposes `Key() -> string`; the payload is opaque
to the core, hence the parameter `α`. -/
structure AResult (α : Type) where
  key : String
  val : α
deriving DecidableEq

/-- Connection record (struct `Connection` of the gourmet package).
`time.Time` is opaque to the core and modelled as `Nat`; the `*bytes.Buffer`
payload is modelled as the byte list it holds; the `Analyzers`
map (`map[string]interface{}`) is modelled extensionally as a partial
function from keys to stored results. -/
structure Connection (α : Type) where
  Timestamp : Nat
  UID : Nat
  SourceIP : String
  SourcePort : Int
  DestinationIP : String
  DestinationPort : Int
  TransportType : String
  Duration : String
  State : String
  Payload : List Nat
  Analyzers : String → Option (AResult α)

/-- Analyzer capability (the gourmet `Analyzer` interface, as used by
`Connection.analyze`): a filter predicate and an analysis operation that
returns a keyed result or an error. -/
structure Analyzer (α : Type) where
  Filter : Connection α → Bool
  Analyze : Connection α → Except String (AResult α)

/-- Go map assignment `m[r.Key()] = r` on the extensional map model. -/
def updMap {α : Type} (m : String → Option (AResult α)) (r : AResult α) :
    String → Option (AResult α) :=
  fun k => if k = r.key then some r else m k

/-- Dispatch loop `Connection.analyze` of the gourmet package: iterate the
registry in order; when an analyzer's `Filter` accepts the record, run its
`Analyze`; on error return it at once (the record keeps the results written
so far); on success store the result under its key and continue.  The Go
method reads the package-global `registeredAnalyzers`; the registry is
passed here as the parameter `regs`, and the in-place mutation of `c`
becomes the returned record. -/
def Connection.analyze {α : Type} (regs : List (Analyzer α)) (c : Connection α) :
    Option String × Connection α :=
  match regs with
  | [] => (none, c)
  | a :: rest =>
    if a.Filter c then
      match a.Analyze c with
      | .error e => (some e, c)
      | .ok r => Connection.analyze rest { c with Analyzers := updMap c.Analyzers r }
    else Connection.analyze rest c

/-- Instrumented view of one dispatch run: the returned error, the final
record, the (absolute) indices of analyzers whose `Filter` was evaluated,
the indices whose `Analyze` was invoked, and the successfully written
results in write order. -/
structure DispatchLog (α : Type) where
  err : Option String
  conn : Connection α
  filtersRun : List Nat
  analyzesRun : List Nat
  writes : List (AResult α)

/-- Instrumented dispatch loop: the same recursion as `Connection.analyze`,
additionally recording which analyzers were evaluated and which results
were written.  `i` is the absolute index of the head analyzer. -/
def dispatchAux {α : Type} (i : Nat) (regs : List (Analyzer α)) (c : Connection α) :
    DispatchLog α :=
  match regs with
  | [] => ⟨none, c, [], [], []⟩
  | a :: rest =>
    if a.Filter c then
      match a.Analyze c with
      | .error e => ⟨some e, c, [i], [i], []⟩
      | .ok r =>
        let o := dispatchAux (i + 1) rest { c with Analyzers := updMap c.Analyzers r }
        ⟨o.err, o.conn, i :: o.filtersRun, i :: o.analyzesRun, r :: o.writes⟩
    else
      let o := dispatchAux (i + 1) rest c
      ⟨o.err, o.conn, i :: o.filtersRun, o.analyzesRun, o.writes⟩

/-- Instrumented dispatch of a whole registry, indices starting at 0. -/
def dispatch {α : Type} (regs : List (Analyzer α)) (c : Connection α) : DispatchLog α :=
  dispatchAux 0 regs c

/-- Sequence of Go map assignments. -/
def writeList {α : Type} (m : String → Option (AResult α)) (ws : List (AResult α)) :
    String → Option (AResult α) :=
  ws.foldl updMap m

/-- Last result in `ws` whose key is `k`, if any. -/
def lastKeyed {α : Type} (ws : List (AResult α)) (k : String) : Option (AResult α) :=
  match ws with
  | [] => none
  | w :: rest =>
    match lastKeyed rest k with
    | some r => some r
    | none => if k = w.key then some w else none

theorem dispatchAux_eq_analyze {α : Type} (regs : List (Analyzer α)) :
    ∀ (i : Nat) (c : Connection α),
      Connection.analyze regs c = ((dispatchAux i regs c).err, (dispatchAux i regs c).conn) := by
  induction regs with
  | nil => intro i c; rfl
  | cons a rest ih =>
    intro i c
    simp only [Connection.analyze, dispatchAux]
    by_cases hf : a.Filter c
    · simp only [hf, if_true]
      cases hA : a.Analyze c with
      | error e => rfl
      | ok r => simpa using ih (i + 1) { c with Analyzers := updMap c.Analyzers r }
    · simp only [hf, if_false]
      simpa using ih (i + 1) c

theorem dispatchAux_conn_writes {α : Type} (regs : List (Analyzer α)) :
    ∀ (i : Nat) (c : Connection α),
      (dispatchAux i regs c).conn.Analyzers
        = writeList c.Analyzers (dispatchAux i regs c).writes := by
  induction regs with
  | nil => intro i c; rfl
  | cons a rest ih =>
    intro i c
    simp only [dispatchAux]
    by_cases hf : a.Filter c
    · simp only [hf, if_true]
      cases hA : a.Analyze c with
      | error e => rfl
      | ok r => simpa [writeList] using ih (i + 1) { c with Analyzers := updMap c.Analyzers r }
    · simp only [hf, if_false]
      simpa using ih (i + 1) c

theorem writeList_apply {α : Type} (ws : List (AResult α)) :
    ∀ (m : String → Option (AResult α)) (k : String),
      writeList m ws k = match lastKeyed ws k with
        | some r => some r
        | none => m k := by
  induction ws with
  | nil => intro m k; rfl
  | cons w rest ih =>
    intro m k
    simp only [writeList, List.foldl, lastKeyed]
    rw [show (List.foldl updMap (updMap m w) rest) = writeList (updMap m w) rest from rfl, ih]
    cases h : lastKeyed rest k with
    | some r => rfl
    | none =>
      by_cases hk : k = w.key
      · simp [updMap, hk]
      · simp [updMap, hk]

theorem lastKeyed_isSome_iff {α : Type} (ws : List (AResult α)) (k : String) :
    (lastKeyed ws k).isSome = true ↔ k ∈ ws.map AResult.key := by
  induction ws with
  | nil => simp [lastKeyed]
  | cons w rest ih =>
    simp only [lastKeyed, List.map, List.mem_cons]
    cases h : lastKeyed rest k with
    | some r =>
      simp only [Option.isSome_some, true_iff]
      right
      rw [← ih, h]
      rfl
    | none =>
      rw [h] at ih
      simp only [Option.isSome_none, Bool.false_eq_true, false_iff] at ih
      by_cases hk : k = w.key
      · simp [hk]
      · simp [hk, ih]

/-- Record `c` with its `Analyzers` map replaced by `m` and every other
field unchanged. -/
def setAnalyzers {α : Type} (c : Connection α) (m : String → Option (AResult α)) :
    Connection α :=
  { c with Analyzers := m }

theorem dispatchAux_conn_set {α : Type} (regs : List (Analyzer α)) :
    ∀ (i : Nat) (c : Connection α),
      (dispatchAux i regs c).conn = setAnalyzers c ((dispatchAux i regs c).conn.Analyzers) := by
  induction regs with
  | nil => intro i c; rfl
  | cons a rest ih =>
    intro i c
    simp only [dispatchAux]
    by_cases hf : a.Filter c
    · simp only [hf, if_true]
      cases hA : a.Analyze c with
      | error e => rfl
      | ok r => simpa using ih (i + 1) { c with Analyzers := updMap c.Analyzers r }
    · simp only [hf, if_false]
      simpa using ih (i + 1) c

theorem writeList_idem {α : Type} (m : String → Option (AResult α)) (ws : List (AResult α)) :
    writeList (writeList m ws) ws = writeList m ws := by
  funext k
  rw [writeList_apply, writeList_apply]
  cases h : lastKeyed ws k with
  | some r => rfl
  | none => rfl

/-- C10: dispatch writes only into the record's Results (`Analyzers`)
mapping; the `Timestamp`, `UID`, `SourceIP`, `SourcePort`, `DestinationIP`,
`DestinationPort`, `TransportType`, `Duration`, `State` and `Payload`
fields of the record returned by `Connection.analyze` are unchanged,
whether dispatch succeeds or returns an error.  (In this embedding the
analyzers' `Filter` and `Analyze` are pure, which is the claim's
hypothesis that they do not themselves mutate the record.) -/
theorem analyze_preserves_fields {α : Type} (regs : List (Analyzer α)) (c : Connection α) :
    (Connection.analyze regs c).2.Timestamp = c.Timestamp
    ∧ (Connection.analyze regs c).2.UID = c.UID
    ∧ (Connection.analyze regs c).2.SourceIP = c.SourceIP
    ∧ (Connection.analyze regs c).2.SourcePort = c.SourcePort
    ∧ (Connection.analyze regs c).2.DestinationIP = c.DestinationIP
    ∧ (Connection.analyze regs c).2.DestinationPort = c.DestinationPort
    ∧ (Connection.analyze regs c).2.TransportType = c.TransportType
    ∧ (Connection.analyze regs c).2.Duration = c.Duration
    ∧ (Connection.analyze regs c).2.State = c.State
    ∧ (Connection.analyze regs c).2.Payload = c.Payload := by
  have h1 : (Connection.analyze regs c).2 = (dispatchAux 0 regs c).conn := by
    rw [dispatchAux_eq_analyze regs 0 c]
  rw [h1, dispatchAux_conn_set regs 0 c]
  exact ⟨rfl, rfl, rfl, rfl, rfl, rfl, rfl, rfl, rfl, rfl⟩

/-- C1 (amended): for a record whose Results mapping is initially empty,
after dispatch the key set of the Results mapping is exactly the set of
keys of the results written by the run, i.e. the results produced by
analyzers whose `Filter` accepted the record, in registry order up to and
excluding the first failing analyzer (all of them when none fails) — the
write list of the instrumented run `dispatch`. -/
theorem dispatch_keyset_of_empty {α : Type} (regs : List (Analyzer α)) (c : Connection α)
    (hempty : ∀ k, c.Analyzers k = none) (k : String) :
    ((Connection.analyze regs c).2.Analyzers k).isSome = true
      ↔ k ∈ (dispatch regs c).writes.map AResult.key := by
  have h1 : (Connection.analyze regs c).2 = (dispatchAux 0 regs c).conn := by
    rw [dispatchAux_eq_analyze regs 0 c]
  rw [h1, dispatchAux_conn_writes regs 0 c]
  show (writeList c.Analyzers (dispatchAux 0 regs c).writes k).isSome = true
    ↔ k ∈ (dispatchAux 0 regs c).writes.map AResult.key
  rw [writeList_apply, ← lastKeyed_isSome_iff]
  cases h : lastKeyed (dispatchAux 0 regs c).writes k with
  | some r => simp
  | none => simp [hempty k]

/-- Connection record with an empty Results mapping, used as a concrete
dispatch input. -/
def cEmpty : Connection Nat :=
  ⟨0, 0, "10.0.0.1", 40000, "10.0.0.2", 443, "TCP", "", "", [], fun _ => none⟩

/-- Analyzer that accepts every record and reports result key "x". -/
def aX : Analyzer Nat := ⟨fun _ => true, fun _ => .ok ⟨"x", 7⟩⟩

/-- Witness for `dispatch_keyset_of_empty` at a concrete registry and
record. -/
theorem dispatch_keyset_of_empty_witness :
    ((Connection.analyze [aX] cEmpty).2.Analyzers ("x")).isSome = true
      ↔ "x" ∈ (dispatch [aX] cEmpty).writes.map AResult.key :=
  dispatch_keyset_of_empty [aX] cEmpty (fun _ => rfl) ("x")

/-- Connection record whose Results mapping already holds a result under
key "pre" before dispatch. -/
def cPre : Connection Nat :=
  ⟨0, 1, "10.0.0.1", 40000, "10.0.0.2", 443, "TCP", "", "", [],
    fun k => if k = "pre" then some ⟨"pre", 0⟩ else none⟩

/-- Counterexample to C1 as stated: dispatching `cPre` against the empty
registry leaves key "pre" in the Results mapping although no analyzer
produced any result, so the final key set is not the set of keys written
by applicable analyzers. -/
theorem dispatch_keyset_cex :
    ((Connection.analyze ([] : List (Analyzer Nat)) cPre).2.Analyzers ("pre")).isSome = true
    ∧ (dispatch ([] : List (Analyzer Nat)) cPre).writes.map AResult.key = [] :=
  ⟨rfl, rfl⟩

/-- C8 (amended): the value stored under a key after dispatch is the
result of the last analyzer, in registry order, whose run wrote that key:
among same-key analyzers the one later in registry order wins, the earlier
value being overwritten silently and without error.  The claim's original
wording — that the later of any two same-key succeeding analyzers wins —
fails when a third, still later analyzer also writes the key
(see the counterexample). -/
theorem results_last_writer_wins {α : Type} (regs : List (Analyzer α)) (c : Connection α)
    (k : String) (r : AResult α)
    (h : lastKeyed (dispatch regs c).writes k = some r) :
    (dispatch regs c).conn.Analyzers k = some r := by
  show (dispatchAux 0 regs c).conn.Analyzers k = some r
  rw [dispatchAux_conn_writes regs 0 c, writeList_apply]
  have h' : lastKeyed (dispatchAux 0 regs c).writes k = some r := h
  rw [h']

/-- Analyzer that accepts every record and writes value 1 under key "k". -/
def aK1 : Analyzer Nat := ⟨fun _ => true, fun _ => .ok ⟨"k", 1⟩⟩

/-- Analyzer that accepts every record and writes value 2 under key "k". -/
def aK2 : Analyzer Nat := ⟨fun _ => true, fun _ => .ok ⟨"k", 2⟩⟩

/-- Analyzer that accepts every record and writes value 3 under key "k". -/
def aK3 : Analyzer Nat := ⟨fun _ => true, fun _ => .ok ⟨"k", 3⟩⟩

/-- Witness for `results_last_writer_wins`: with two same-key analyzers
the later one's result ends up in the Results mapping. -/
theorem results_last_writer_wins_witness :
    (dispatch [aK1, aK2] cEmpty).conn.Analyzers ("k") = some ⟨"k", 2⟩ :=
  results_last_writer_wins [aK1, aK2] cEmpty ("k") ⟨"k", 2⟩ rfl

/-- Counterexample to C8 as stated: with three same-key analyzers that all
filter true and all succeed, the pair (aK1, aK2) satisfies the claim's
hypotheses with aK2 the later of the two, yet the stored value is aK3's
result, not aK2's. -/
theorem same_key_pair_cex :
    (dispatch [aK1, aK2, aK3] cEmpty).err = none
    ∧ (dispatch [aK1, aK2, aK3] cEmpty).analyzesRun = [0, 1, 2]
    ∧ (dispatch [aK1, aK2, aK3] cEmpty).conn.Analyzers ("k") = some ⟨"k", 3⟩
    ∧ some (⟨"k", 3⟩ : AResult Nat) ≠ some (⟨"k", 2⟩ : AResult Nat) :=
  ⟨rfl, rfl, rfl, by decide⟩

theorem writeList_mem_isSome {α : Type} (m : String → Option (AResult α))
    (ws : List (AResult α)) (r : AResult α) (hr : r ∈ ws) :
    (writeList m ws r.key).isSome = true := by
  rw [writeList_apply]
  cases h : lastKeyed ws r.key with
  | some s => rfl
  | none =>
    exfalso
    have hmem : r.key ∈ ws.map AResult.key := List.mem_map.mpr ⟨r, hr, rfl⟩
    rw [← lastKeyed_isSome_iff, h] at hmem
    simp at hmem

theorem dispatchAux_cons_skip {α : Type} {a : Analyzer α} {c : Connection α}
    (rest : List (Analyzer α)) (i : Nat) (hf : a.Filter c = false) :
    dispatchAux i (a :: rest) c =
      ⟨(dispatchAux (i + 1) rest c).err, (dispatchAux (i + 1) rest c).conn,
        i :: (dispatchAux (i + 1) rest c).filtersRun,
        (dispatchAux (i + 1) rest c).analyzesRun,
        (dispatchAux (i + 1) rest c).writes⟩ := by
  simp [dispatchAux, hf]

theorem dispatchAux_cons_err {α : Type} {a : Analyzer α} {c : Connection α} {e : String}
    (rest : List (Analyzer α)) (i : Nat) (hf : a.Filter c = true)
    (hA : a.Analyze c = Except.error e) :
    dispatchAux i (a :: rest) c = ⟨some e, c, [i], [i], []⟩ := by
  simp [dispatchAux, hf, hA]

theorem dispatchAux_cons_ok {α : Type} {a : Analyzer α} {c : Connection α} {r : AResult α}
    (rest : List (Analyzer α)) (i : Nat) (hf : a.Filter c = true)
    (hA : a.Analyze c = Except.ok r) :
    dispatchAux i (a :: rest) c =
      ⟨(dispatchAux (i + 1) rest { c with Analyzers := updMap c.Analyzers r }).err,
        (dispatchAux (i + 1) rest { c with Analyzers := updMap c.Analyzers r }).conn,
        i :: (dispatchAux (i + 1) rest { c with Analyzers := updMap c.Analyzers r }).filtersRun,
        i :: (dispatchAux (i + 1) rest { c with Analyzers := updMap c.Analyzers r }).analyzesRun,
        r :: (dispatchAux (i + 1) rest { c with Analyzers := updMap c.Analyzers r }).writes⟩ := by
  simp [dispatchAux, hf, hA]

theorem dispatchAux_err_spec {α : Type} (regs : List (Analyzer α)) :
    ∀ (i : Nat) (c : Connection α) (e : String),
      (dispatchAux i regs c).err = some e →
      ∃ k a, regs.get? k = some a
        ∧ (dispatchAux i regs c).filtersRun = List.range' i (k + 1)
        ∧ (dispatchAux i regs c).analyzesRun.getLast? = some (i + k)
        ∧ (∀ j ∈ (dispatchAux i regs c).analyzesRun, j ≤ i + k)
        ∧ a.Filter (dispatchAux i regs c).conn = true
        ∧ a.Analyze (dispatchAux i regs c).conn = Except.error e := by
  induction regs with
  | nil => intro i c e h; exact absurd h (by simp [dispatchAux])
  | cons a rest ih =>
    intro i c e h
    by_cases hf : a.Filter c
    · cases hA : a.Analyze c with
      | error e' =>
        rw [dispatchAux_cons_err rest i hf hA] at h ⊢
        obtain rfl : e' = e := Option.some.inj h
        refine ⟨0, a, rfl, ?_, ?_, ?_, hf, hA⟩
        · show [i] = List.range' i (0 + 1)
          simp
        · show List.getLast? [i] = some (i + 0)
          simp
        · intro j hj
          simp only [List.mem_singleton] at hj
          omega
      | ok r =>
        rw [dispatchAux_cons_ok rest i hf hA] at h ⊢
        obtain ⟨k', a', hget, hfil, hlast, hle, hF, hA'⟩ :=
          ih (i + 1) { c with Analyzers := updMap c.Analyzers r } e h
        refine ⟨k' + 1, a', by simpa using hget, ?_, ?_, ?_, hF, hA'⟩
        · show i :: (dispatchAux (i + 1) rest _).filtersRun = List.range' i (k' + 1 + 1)
          rw [List.range'_succ, hfil]
        · show List.getLast? (i :: (dispatchAux (i + 1) rest _).analyzesRun) = some (i + (k' + 1))
          cases hrun : (dispatchAux (i + 1) rest
              { c with Analyzers := updMap c.Analyzers r }).analyzesRun with
          | nil => rw [hrun] at hlast; exact absurd hlast (by simp)
          | cons b l =>
            rw [hrun] at hlast
            rw [List.getLast?_cons_cons, hlast]
            congr 1
            omega
        · intro j hj
          simp only [List.mem_cons] at hj
          rcases hj with rfl | hj
          · omega
          · have := hle j hj; omega
    · have hf' : a.Filter c = false := by
        simpa using hf
      rw [dispatchAux_cons_skip rest i hf'] at h ⊢
      obtain ⟨k', a', hget, hfil, hlast, hle, hF, hA'⟩ := ih (i + 1) c e h
      refine ⟨k' + 1, a', by simpa using hget, ?_, ?_, ?_, hF, hA'⟩
      · show i :: (dispatchAux (i + 1) rest c).filtersRun = List.range' i (k' + 1 + 1)
        rw [List.range'_succ, hfil]
      · show List.getLast? ((dispatchAux (i + 1) rest c).analyzesRun) = some (i + (k' + 1))
        rw [hlast]
        congr 1
        omega
      · intro j hj
        have := hle j hj
        omega

theorem dispatchAux_ok_of_total {α : Type} (regs : List (Analyzer α))
    (htot : ∀ a ∈ regs, ∀ s, a.Filter s = true → ∃ r, a.Analyze s = Except.ok r) :
    ∀ (i : Nat) (c : Connection α), (dispatchAux i regs c).err = none := by
  induction regs with
  | nil => intro i c; rfl
  | cons a rest ih =>
    intro i c
    have ih' := ih (fun b hb => htot b (List.mem_cons_of_mem a hb))
    simp only [dispatchAux]
    by_cases hf : a.Filter c
    · simp only [hf, if_true]
      obtain ⟨r, hr⟩ := htot a (List.mem_cons_self _ _) c hf
      rw [hr]
      exact ih' (i + 1) _
    · simp only [hf, if_false]
      exact ih' (i + 1) c

/-- C2: fail-fast per record.  If dispatch returns an error, that error is
the one produced by the first analyzer whose `Filter` accepted the record
and whose `Analyze` failed: exactly the analyzers up to and including it
had their `Filter` evaluated (none later), no later analyzer's `Analyze`
ran, the failing analyzer's `Analyze` on the record it saw is the returned
error, and the results written by the earlier successful analyzers remain
in the Results mapping.  If every applicable analyzer succeeds, dispatch
returns no error. -/
theorem dispatch_failfast {α : Type} (regs : List (Analyzer α)) (c : Connection α) :
    (∀ e, (dispatch regs c).err = some e →
      ∃ i a, regs.get? i = some a
        ∧ (dispatch regs c).filtersRun = List.range (i + 1)
        ∧ (dispatch regs c).analyzesRun.getLast? = some i
        ∧ (∀ j ∈ (dispatch regs c).analyzesRun, j ≤ i)
        ∧ a.Filter (dispatch regs c).conn = true
        ∧ a.Analyze (dispatch regs c).conn = Except.error e
        ∧ (dispatch regs c).conn.Analyzers = writeList c.Analyzers (dispatch regs c).writes
        ∧ ∀ r ∈ (dispatch regs c).writes, ((dispatch regs c).conn.Analyzers r.key).isSome = true)
    ∧ ((∀ a ∈ regs, ∀ s, a.Filter s = true → ∃ r, a.Analyze s = Except.ok r) →
        (dispatch regs c).err = none) := by
  constructor
  · intro e h
    obtain ⟨k, a, hget, hfil, hlast, hle, hF, hA⟩ := dispatchAux_err_spec regs 0 c e h
    refine ⟨k, a, hget, ?_, by simpa using hlast, by simpa using hle, hF, hA, ?_, ?_⟩
    · rw [List.range_eq_range']
      exact hfil
    · exact dispatchAux_conn_writes regs 0 c
    · intro r hr
      show ((dispatchAux 0 regs c).conn.Analyzers r.key).isSome = true
      rw [dispatchAux_conn_writes regs 0 c]
      exact writeList_mem_isSome _ _ r hr
  · intro htot
    exact dispatchAux_ok_of_total regs htot 0 c

/-- Witness for `dispatch_failfast`: a registry whose single analyzer is
applicable and always succeeds makes dispatch return no error. -/
theorem dispatch_failfast_witness : (dispatch [aX] cEmpty).err = none :=
  (dispatch_failfast [aX] cEmpty).2 (by
    intro a ha s _
    simp only [List.mem_singleton] at ha
    subst ha
    exact ⟨⟨"x", 7⟩, rfl⟩)

/-- Analyzer whose behaviour does not depend on the record's Results
mapping: replacing the `Analyzers` field changes neither its `Filter`
decision nor its `Analyze` outcome. -/
def MapBlind {α : Type} (a : Analyzer α) : Prop :=
  (∀ c m, a.Filter (setAnalyzers c m) = a.Filter c)
  ∧ (∀ c m, a.Analyze (setAnalyzers c m) = a.Analyze c)

theorem dispatchAux_mapBlind {α : Type} (regs : List (Analyzer α))
    (hb : ∀ a ∈ regs, MapBlind a) :
    ∀ (i : Nat) (c : Connection α) (m₁ m₂ : String → Option (AResult α)),
      (dispatchAux i regs (setAnalyzers c m₁)).writes
          = (dispatchAux i regs (setAnalyzers c m₂)).writes
      ∧ (dispatchAux i regs (setAnalyzers c m₁)).err
          = (dispatchAux i regs (setAnalyzers c m₂)).err := by
  induction regs with
  | nil => intro i c m₁ m₂; exact ⟨rfl, rfl⟩
  | cons a rest ih =>
    intro i c m₁ m₂
    have hba := hb a (List.mem_cons_self _ _)
    have ih' := ih (fun b hbm => hb b (List.mem_cons_of_mem a hbm))
    have hfEq : a.Filter (setAnalyzers c m₁) = a.Filter (setAnalyzers c m₂) := by
      rw [hba.1 c m₁, hba.1 c m₂]
    have haEq : a.Analyze (setAnalyzers c m₁) = a.Analyze (setAnalyzers c m₂) := by
      rw [hba.2 c m₁, hba.2 c m₂]
    simp only [dispatchAux]
    by_cases hf : a.Filter (setAnalyzers c m₁)
    · rw [hf] at hfEq
      simp only [hf, ← hfEq, if_true]
      cases hA : a.Analyze (setAnalyzers c m₁) with
      | error e =>
        rw [hA] at haEq
        rw [← haEq]
        exact ⟨rfl, rfl⟩
      | ok r =>
        rw [hA] at haEq
        rw [← haEq]
        have hrec := ih' (i + 1) c (updMap m₁ r) (updMap m₂ r)
        exact ⟨by simpa using congrArg (r :: ·) hrec.1, by simpa using hrec.2⟩
    · have hf₂ : a.Filter (setAnalyzers c m₂) = false := by
        rw [← hfEq]; exact Bool.not_eq_true _ ▸ eq_false_of_ne_true hf
      simp only [Bool.not_eq_true] at hf
      simp only [hf, hf₂, Bool.false_eq_true, if_false]
      exact ih' (i + 1) c m₁ m₂

/-- C9 (amended): dispatching a record twice against the same registry of
analyzers that do not read the Results mapping (their `Filter` and
`Analyze` are unchanged when the `Analyzers` field is replaced) yields the
same Results mapping as dispatching it once: the second run rewrites each
key with the value already present.  The claim's original wording — any
deterministic, non-mutating analyzers — fails for an analyzer whose result
depends on the Results mapping (see the counterexample). -/
theorem dispatch_idempotent_mapblind {α : Type} (regs : List (Analyzer α)) (c : Connection α)
    (hb : ∀ a ∈ regs, MapBlind a) :
    (Connection.analyze regs (Connection.analyze regs c).2).2.Analyzers
      = (Connection.analyze regs c).2.Analyzers := by
  have e1 : (Connection.analyze regs c).2 = (dispatchAux 0 regs c).conn := by
    rw [dispatchAux_eq_analyze regs 0 c]
  rw [e1]
  have e2 : (Connection.analyze regs (dispatchAux 0 regs c).conn).2
      = (dispatchAux 0 regs (dispatchAux 0 regs c).conn).conn := by
    rw [dispatchAux_eq_analyze regs 0 ((dispatchAux 0 regs c).conn)]
  rw [e2]
  have key : ∀ (m : String → Option (AResult α)),
      (dispatchAux 0 regs (setAnalyzers c m)).conn.Analyzers
        = writeList m (dispatchAux 0 regs c).writes := by
    intro m
    rw [dispatchAux_conn_writes regs 0 (setAnalyzers c m)]
    have h2 : (dispatchAux 0 regs (setAnalyzers c m)).writes
        = (dispatchAux 0 regs c).writes :=
      (dispatchAux_mapBlind regs hb 0 c m c.Analyzers).1
    rw [h2]
    rfl
  have hset := dispatchAux_conn_set regs 0 c
  have hw := dispatchAux_conn_writes regs 0 c
  conv_lhs => rw [hset]
  rw [key ((dispatchAux 0 regs c).conn.Analyzers), hw]
  exact writeList_idem c.Analyzers (dispatchAux 0 regs c).writes

/-- Witness for `dispatch_idempotent_mapblind` with a concrete analyzer
that ignores the record entirely. -/
theorem dispatch_idempotent_mapblind_witness :
    (Connection.analyze [aX] (Connection.analyze [aX] cEmpty).2).2.Analyzers
      = (Connection.analyze [aX] cEmpty).2.Analyzers :=
  dispatch_idempotent_mapblind [aX] cEmpty (by
    intro a ha
    simp only [List.mem_singleton] at ha
    subst ha
    exact ⟨fun _ _ => rfl, fun _ _ => rfl⟩)

/-- Deterministic, non-mutating analyzer whose result value depends on the
record's Results mapping: it reports 1 when key "n" is already present and
0 otherwise. -/
def aCount : Analyzer Nat :=
  ⟨fun _ => true, fun c => .ok ⟨"n", if (c.Analyzers ("n")).isSome then 1 else 0⟩⟩

/-- Counterexample to C9 as stated: `aCount` is deterministic and
non-mutating, yet the first dispatch stores value 0 under "n" and the
second dispatch overwrites it with value 1, so the two dispatches do not
yield identical Results. -/
theorem dispatch_idempotent_cex :
    (Connection.analyze [aCount] cEmpty).2.Analyzers ("n") = some ⟨"n", 0⟩
    ∧ (Connection.analyze [aCount] (Connection.analyze [aCount] cEmpty).2).2.Analyzers ("n")
        = some ⟨"n", 1⟩
    ∧ some (⟨"n", 1⟩ : AResult Nat) ≠ some ⟨"n", 0⟩ :=
  ⟨rfl, rfl, by decide⟩

/-- Snapshot-length validation of `cmd/main.go`: below 64 or above
4294967295 is rejected with an error message, anything else accepted.
The Go parameter has type `int`; it is modelled as `Int`. -/
def validateSnapshotLength (snapLen : Int) : Option String :=
  if snapLen < 64 then some ("minimum snapshot length is 64")
  else if snapLen > 4294967295 then
    some ("snapshot length must be an unsigned 32-bit integer")
  else none

/-- Modelled from the spec: the `gourmet.InterfaceType` constants
`LibpcapType` and `AfpacketType`; the type's definition lives in the
gourmet package outside the given sources, which per the spec recognizes
exactly these two interface types. -/
inductive InterfaceType where
  | LibpcapType
  | AfpacketType
deriving DecidableEq

/-- Interface-type conversion of `cmd/main.go`: exactly the strings
"libpcap" and "afpacket" are accepted; anything else yields an error.
The Go function returns a pair `(InterfaceType, error)` with value 0 in
the error case; it is modelled as `Except`. -/
def convertIfaceType (ifaceType : String) : Except String InterfaceType :=
  if ifaceType = "libpcap" then .ok .LibpcapType
  else if ifaceType = "afpacket" then .ok .AfpacketType
  else .error ("invalid interface type. Must be libpcap or afpacket")

/-- C6: `validateSnapshotLength` accepts an integer n exactly when
64 ≤ n ≤ 4294967295; in particular 63 and 4294967296 are rejected with an
error while 64 and 4294967295 are accepted. -/
theorem validateSnapshotLength_spec :
    (∀ n : Int, validateSnapshotLength n = none ↔ (64 ≤ n ∧ n ≤ 4294967295))
    ∧ (validateSnapshotLength 63).isSome = true
    ∧ (validateSnapshotLength 4294967296).isSome = true
    ∧ validateSnapshotLength 64 = none
    ∧ validateSnapshotLength 4294967295 = none := by
  refine ⟨?_, rfl, rfl, rfl, rfl⟩
  intro n
  unfold validateSnapshotLength
  split_ifs with h1 h2
  · exact iff_of_false (by simp) (by omega)
  · exact iff_of_false (by simp) (by omega)
  · exact iff_of_true rfl ⟨by omega, by omega⟩

/-- C7: `convertIfaceType` succeeds exactly on the strings "libpcap" and
"afpacket" (case-sensitive), returning the libpcap and afpacket interface
types respectively, and returns an explicit error on every other
string. -/
theorem convertIfaceType_spec :
    (∀ s t, convertIfaceType s = Except.ok t
        ↔ ((s = "libpcap" ∧ t = InterfaceType.LibpcapType)
            ∨ (s = "afpacket" ∧ t = InterfaceType.AfpacketType)))
    ∧ (∀ s, (∃ e, convertIfaceType s = Except.error e)
        ↔ (s ≠ "libpcap" ∧ s ≠ "afpacket")) := by
  constructor
  · intro s t
    unfold convertIfaceType
    split_ifs with h1 h2
    · subst h1
      constructor
      · intro h
        exact Or.inl ⟨rfl, (Except.ok.inj h).symm⟩
      · rintro (⟨-, rfl⟩ | ⟨hc, -⟩)
        · rfl
        · exact absurd hc (by decide)
    · subst h2
      constructor
      · intro h
        exact Or.inr ⟨rfl, (Except.ok.inj h).symm⟩
      · rintro (⟨hc, -⟩ | ⟨-, rfl⟩)
        · exact absurd hc h1
        · rfl
    · constructor
      · intro h
        exact absurd h (by simp)
      · rintro (⟨hc, -⟩ | ⟨hc, -⟩)
        · exact absurd hc h1
        · exact absurd hc h2
  · intro s
    unfold convertIfaceType
    split_ifs with h1 h2
    · exact iff_of_false (by rintro ⟨e, he⟩; cases he) (by simp [h1])
    · exact iff_of_false (by rintro ⟨e, he⟩; cases he) (by simp [h2])
    · exact iff_of_true ⟨_, rfl⟩ ⟨h1, h2⟩

/-- Outcome of `os.Stat`: success, or an error with its message and
whether `os.IsNotExist` holds for it. -/
inductive StatRes where
  | ok
  | err (msg : String) (notExist : Bool)

/-- Symbol resolved by `plugin.Lookup`: either a value of the expected
type `func() gourmet.Analyzer`, or a value of some other type (on which
the unchecked type assertion in `newAnalyzers` panics). -/
inductive Sym (α : Type) where
  | factory (f : Unit → Analyzer α)
  | other

/-- Handle returned by `plugin.Open`, supporting `Lookup` by symbol
name. -/
structure PluginH (α : Type) where
  lookup : String → Except String (Sym α)

/-- Environment of `newAnalyzers`: the outcomes of the operating-system
and subprocess calls it makes, keyed by their string arguments.
`userCurrent` is `user.Current()` (giving the home directory), `stat` is
`os.Stat`, `clone` is `git clone url dir` (its error, if any), `pull` is
`git -C dir pull` (its error, if any), `build` is
`go build -buildmode=plugin` returning the combined output and whether the
build succeeded, and `pluginOpen` is `plugin.Open`. -/
structure PluginWorld (α : Type) where
  userCurrent : Except String String
  stat : String → StatRes
  clone : String → String → Option String
  pull : String → Option String
  build : String → String × Bool
  pluginOpen : String → Except String (PluginH α)

/-- Helper `dirExists` of `cmd/main.go`: stat succeeds → (true, nil);
`os.IsNotExist` → (false, nil); any other stat error → (true, err). -/
def dirExists {α : Type} (w : PluginWorld α) (path : String) : Bool × Option String :=
  match w.stat path with
  | .ok => (true, none)
  | .err m notEx => if notEx then (false, none) else (true, some m)

/-- Directory of a path, as `filepath.Dir` behaves on the slash-joined
paths `newAnalyzers` constructs: everything before the last slash. -/
def dirOf (p : String) : String :=
  String.intercalate ("/") ((p.splitOn ("/")).dropLast)

/-- Path of the built module, `fmt.Sprintf("%s/main.so", filepath.Dir(f))`. -/
def soPath (file : String) : String := dirOf file ++ "/main.so"

/-- First loop of `newAnalyzers`: per link, check the cache directory;
clone on absence (failure is fatal, wrapped as "failed to install ...");
on presence with the update flag set run `git pull` whose outcome is
assigned to `err` but immediately overwritten by the following
`os.Stat(mainPath)`, hence ignored; then require `main.go` to exist and
collect its path. -/
def collectFiles {α : Type} (w : PluginWorld α) (pluginsDir : String) (update : Bool) :
    List String → Except String (List String)
  | [] => Except.ok []
  | link :: rest =>
    let pluginDir := pluginsDir ++ "/" ++ link
    let mainPath := pluginDir ++ "/main.go"
    match dirExists w pluginDir with
    | (_, some e) => Except.error e
    | (ex, none) =>
      let fetchErr : Option String :=
        if !ex then
          match w.clone ("https://" ++ link) pluginDir with
          | some e => some ("failed to install " ++ link ++ ": " ++ e)
          | none => none
        else if update then
          let _ := w.pull pluginDir
          none
        else none
      match fetchErr with
      | some e => Except.error e
      | none =>
        match w.stat mainPath with
        | .err m _ => Except.error m
        | .ok =>
          match collectFiles w pluginsDir update rest with
          | .error e => Except.error e
          | .ok fs => Except.ok (mainPath :: fs)

/-- Observable outcome of `newAnalyzers`: a normal return (the analyzer
slice and the error value, as in Go both are returned), or a runtime
panic. -/
inductive NAOut (α : Type) where
  | ret (analyzers : List (Analyzer α)) (err : Option String)
  | panicked

/-- Second loop of `newAnalyzers`: per collected file, build the plugin
(non-zero exit is fatal with the combined output embedded in the
message), `plugin.Open` the module, `Lookup` the `NewAnalyzer` symbol
(either failure returns the error), then apply the unchecked type
assertion `sym.(func() gourmet.Analyzer)` — a wrong-typed symbol panics —
and append the factory's analyzer.  Any fatal error returns a nil slice. -/
def buildLoadAux {α : Type} (w : PluginWorld α) :
    List String → List (Analyzer α) → NAOut α
  | [], acc => .ret acc none
  | file :: rest, acc =>
    let bres := w.build file
    if bres.2 = true then
      match w.pluginOpen (soPath file) with
      | .error e => .ret [] (some e)
      | .ok p =>
        match p.lookup ("NewAnalyzer") with
        | .error e => .ret [] (some e)
        | .ok (.factory f) => buildLoadAux w rest (acc ++ [f ()])
        | .ok .other => .panicked
    else
      .ret [] (some ("failed to build " ++ file ++ ": " ++ bres.1))

/-- Plugin cache root `filepath.Join(homeDir, ".gourmet/plugins/")`. -/
def pluginsDirOf (home : String) : String := home ++ "/.gourmet/plugins"

/-- Cache directory of one plugin link. -/
def pluginDirOf (home link : String) : String := pluginsDirOf home ++ "/" ++ link

/-- Entry-point file of one plugin link. -/
def mainPathOf (home link : String) : String := pluginDirOf home link ++ "/main.go"

/-- Plugin manager `newAnalyzers` of `cmd/main.go`: resolve the home
directory, run the collection loop over all links, and if any file was
collected run the build-and-load loop.  The iteration order of the Go
`map[string]interface{}` of links is unspecified; `links` is one such
order. -/
def newAnalyzers {α : Type} (w : PluginWorld α) (links : List String) (update : Bool) :
    NAOut α :=
  match w.userCurrent with
  | .error e => .ret [] (some e)
  | .ok homeDir =>
    match collectFiles w (pluginsDirOf homeDir) update links with
    | .error e => .ret [] (some e)
    | .ok files =>
      if files.length > 0 then buildLoadAux w files [] else .ret [] none

/-- Conditions under which the collection loop passes one link: the cache
directory stats cleanly (or is absent and the clone succeeds), and the
entry-point file `main.go` stats cleanly. -/
def CollectOk {α : Type} (w : PluginWorld α) (pdir link : String) : Prop :=
  (match w.stat (pdir ++ "/" ++ link) with
    | .ok => True
    | .err _ notEx =>
        notEx = true ∧ w.clone ("https://" ++ link) (pdir ++ "/" ++ link) = none)
  ∧ w.stat (pdir ++ "/" ++ link ++ "/main.go") = StatRes.ok

/-- Conditions under which the build-and-load loop passes one file,
producing the analyzer of factory `f`: the build succeeds, `plugin.Open`
succeeds, and `Lookup` resolves `NewAnalyzer` to a correctly typed
factory. -/
def GoodFile {α : Type} (w : PluginWorld α) (file : String) (f : Unit → Analyzer α) : Prop :=
  (w.build file).2 = true
  ∧ ∃ p, w.pluginOpen (soPath file) = Except.ok p
      ∧ p.lookup ("NewAnalyzer") = Except.ok (Sym.factory f)

theorem collectFiles_ok {α : Type} (w : PluginWorld α) (pdir : String) (update : Bool) :
    ∀ links : List String, (∀ l ∈ links, CollectOk w pdir l) →
      collectFiles w pdir update links
        = Except.ok (links.map (fun l => pdir ++ "/" ++ l ++ "/main.go")) := by
  intro links
  induction links with
  | nil => intro _; rfl
  | cons link rest ih =>
    intro h
    obtain ⟨hdir, hmain⟩ := h link (List.mem_cons_self _ _)
    have hrest := ih (fun l hl => h l (List.mem_cons_of_mem _ hl))
    simp only [collectFiles]
    cases hstat : w.stat (pdir ++ "/" ++ link) with
    | ok =>
      simp only [dirExists, hstat, Bool.not_true, Bool.false_eq_true, if_false, ite_self,
        hmain, hrest, List.map_cons]
    | err m notEx =>
      rw [hstat] at hdir
      obtain ⟨hne, hclone⟩ := hdir
      subst hne
      simp only [dirExists, hstat, if_true, Bool.not_false, hclone, if_true,
        hmain, hrest, List.map_cons]

theorem buildLoadAux_through {α : Type} (w : PluginWorld α) :
    ∀ (pre rest : List String) (acc : List (Analyzer α)),
      (∀ fl ∈ pre, ∃ f, GoodFile w fl f) →
      ∃ acc₂, buildLoadAux w (pre ++ rest) acc = buildLoadAux w rest acc₂ := by
  intro pre
  induction pre with
  | nil => intro rest acc _; exact ⟨acc, rfl⟩
  | cons fl pre₂ ih =>
    intro rest acc h
    obtain ⟨f, hbuild, p, hopen, hlook⟩ := h fl (List.mem_cons_self _ _)
    simp only [List.cons_append, buildLoadAux, hbuild, if_true, hopen, hlook]
    exact ih rest (acc ++ [f ()]) (fun l hl => h l (List.mem_cons_of_mem _ hl))

theorem buildLoadAux_good {α : Type} (w : PluginWorld α)
    (files : List String) (gs : List (Analyzer α))
    (h : List.Forall₂ (fun fl g => GoodFile w fl (fun _ => g)) files gs) :
    ∀ acc : List (Analyzer α), buildLoadAux w files acc = NAOut.ret (acc ++ gs) none := by
  induction h with
  | nil => intro acc; simp [buildLoadAux]
  | cons hfg hrest ih =>
    intro acc
    obtain ⟨hbuild, p, hopen, hlook⟩ := hfg
    simp only [buildLoadAux, hbuild, if_true, hopen, hlook]
    rw [ih]
    simp

theorem forall₂_map_of_mem {β γ δ : Type} (f : β → γ) (g : β → δ) (R : γ → δ → Prop) :
    ∀ ls : List β, (∀ l ∈ ls, R (f l) (g l)) → List.Forall₂ R (ls.map f) (ls.map g) := by
  intro ls
  induction ls with
  | nil => intro _; exact List.Forall₂.nil
  | cons x xs ih =>
    intro h
    exact List.Forall₂.cons (h x (List.mem_cons_self _ _))
      (ih (fun l hl => h l (List.mem_cons_of_mem _ hl)))

theorem newAnalyzers_reach {α : Type} (w : PluginWorld α) (home : String) (update : Bool)
    (pre post : List String) (bad : String)
    (hu : w.userCurrent = Except.ok home)
    (hc : ∀ l ∈ pre ++ bad :: post, CollectOk w (pluginsDirOf home) l)
    (hg : ∀ l ∈ pre, ∃ f, GoodFile w (mainPathOf home l) f) :
    ∃ acc, newAnalyzers w (pre ++ bad :: post) update
      = buildLoadAux w (mainPathOf home bad :: post.map (mainPathOf home)) acc := by
  have hfun : (fun l => pluginsDirOf home ++ "/" ++ l ++ "/main.go") = mainPathOf home := rfl
  have hlen : ((pre ++ bad :: post).map (mainPathOf home)).length > 0 := by simp
  have hna : newAnalyzers w (pre ++ bad :: post) update
      = (if ((pre ++ bad :: post).map (mainPathOf home)).length > 0
          then buildLoadAux w ((pre ++ bad :: post).map (mainPathOf home)) []
          else NAOut.ret [] none) := by
    simp only [newAnalyzers, hu]
    rw [collectFiles_ok w (pluginsDirOf home) update _ hc, hfun]
  rw [hna, if_pos hlen, List.map_append, List.map_cons]
  exact buildLoadAux_through w (pre.map (mainPathOf home))
    (mainPathOf home bad :: post.map (mainPathOf home)) []
    (by
      intro fl hfl
      obtain ⟨l, hl, rfl⟩ := List.mem_map.mp hfl
      exact hg l hl)

/-- C3: if, after a collection phase that succeeded for every reference,
the native build step of some reference's entry-point file exits non-zero
(all references before it building and loading fine), `newAnalyzers`
returns the error "failed to build <file>: <output>" carrying the full
combined build output, together with a nil analyzer slice — no partial
analyzer set from the references already built. -/
theorem newAnalyzers_build_failure {α : Type} (w : PluginWorld α) (home : String)
    (update : Bool) (pre post : List String) (bad : String) (out : String)
    (hu : w.userCurrent = Except.ok home)
    (hc : ∀ l ∈ pre ++ bad :: post, CollectOk w (pluginsDirOf home) l)
    (hg : ∀ l ∈ pre, ∃ f, GoodFile w (mainPathOf home l) f)
    (hbuild : w.build (mainPathOf home bad) = (out, false)) :
    newAnalyzers w (pre ++ bad :: post) update
      = NAOut.ret [] (some ("failed to build " ++ mainPathOf home bad ++ ": " ++ out)) := by
  obtain ⟨acc, hacc⟩ := newAnalyzers_reach w home update pre post bad hu hc hg
  rw [hacc]
  simp [buildLoadAux, hbuild]

/-- Analyzer used as the output of concrete plugin factories. -/
def anA : Analyzer Nat := ⟨fun _ => true, fun _ => Except.ok ⟨"a", 0⟩⟩

/-- Plugin environment in which every cache directory exists, every
entry point exists, and every build fails with output "undefined: Foo". -/
def wBuildFail : PluginWorld Nat :=
  { userCurrent := Except.ok ("/home/u")
  , stat := fun _ => StatRes.ok
  , clone := fun _ _ => none
  , pull := fun _ => none
  , build := fun _ => ("undefined: Foo", false)
  , pluginOpen := fun _ => Except.error ("unused") }

/-- Witness for `newAnalyzers_build_failure` at a concrete environment
and a single reference. -/
theorem newAnalyzers_build_failure_witness :
    newAnalyzers wBuildFail ["github.com/x/y"] false
      = NAOut.ret [] (some ("failed to build "
          ++ mainPathOf ("/home/u") ("github.com/x/y") ++ ": " ++ "undefined: Foo")) :=
  newAnalyzers_build_failure wBuildFail ("/home/u") false [] [] ("github.com/x/y")
    ("undefined: Foo") rfl
    (fun _ _ => ⟨trivial, rfl⟩)
    (fun l hl => absurd hl (List.not_mem_nil l))
    rfl

/-- C4 (amended): for a reference whose module was built, a failure of
`plugin.Open` and a missing `NewAnalyzer` symbol each make `newAnalyzers`
return that error to the caller with a nil analyzer slice; but a resolved
symbol whose type is not the expected `func() gourmet.Analyzer` makes the
unchecked type assertion panic instead of returning an error.  The
claim's original wording — that a wrong-typed symbol also yields a
returned error and never a panic — fails (see the counterexample). -/
theorem newAnalyzers_load_errors {α : Type} (w : PluginWorld α) (home : String)
    (update : Bool) (pre post : List String) (bad : String)
    (hu : w.userCurrent = Except.ok home)
    (hc : ∀ l ∈ pre ++ bad :: post, CollectOk w (pluginsDirOf home) l)
    (hg : ∀ l ∈ pre, ∃ f, GoodFile w (mainPathOf home l) f)
    (hbuild : (w.build (mainPathOf home bad)).2 = true) :
    (∀ e, w.pluginOpen (soPath (mainPathOf home bad)) = Except.error e →
        newAnalyzers w (pre ++ bad :: post) update = NAOut.ret [] (some e))
    ∧ (∀ p e, w.pluginOpen (soPath (mainPathOf home bad)) = Except.ok p →
        p.lookup ("NewAnalyzer") = Except.error e →
        newAnalyzers w (pre ++ bad :: post) update = NAOut.ret [] (some e))
    ∧ (∀ p, w.pluginOpen (soPath (mainPathOf home bad)) = Except.ok p →
        p.lookup ("NewAnalyzer") = Except.ok Sym.other →
        newAnalyzers w (pre ++ bad :: post) update = NAOut.panicked) := by
  obtain ⟨acc, hacc⟩ := newAnalyzers_reach w home update pre post bad hu hc hg
  refine ⟨?_, ?_, ?_⟩
  · intro e hopen
    rw [hacc]
    simp [buildLoadAux, hbuild, hopen]
  · intro p e hopen hlook
    rw [hacc]
    simp [buildLoadAux, hbuild, hopen, hlook]
  · intro p hopen hlook
    rw [hacc]
    simp [buildLoadAux, hbuild, hopen, hlook]

/-- Plugin environment in which everything succeeds up to `plugin.Open`,
which fails. -/
def wOpenFail : PluginWorld Nat :=
  { userCurrent := Except.ok ("/home/u")
  , stat := fun _ => StatRes.ok
  , clone := fun _ _ => none
  , pull := fun _ => none
  , build := fun _ => ("", true)
  , pluginOpen := fun _ => Except.error ("plugin.Open: invalid ELF header") }

/-- Witness for `newAnalyzers_load_errors`: a load failure is returned as
an error with a nil analyzer slice. -/
theorem newAnalyzers_load_errors_witness :
    newAnalyzers wOpenFail ["github.com/x/y"] false
      = NAOut.ret [] (some ("plugin.Open: invalid ELF header")) :=
  (newAnalyzers_load_errors wOpenFail ("/home/u") false [] [] ("github.com/x/y") rfl
      (fun _ _ => ⟨trivial, rfl⟩)
      (fun l hl => absurd hl (List.not_mem_nil l))
      rfl).1 ("plugin.Open: invalid ELF header") rfl

/-- Plugin environment in which everything succeeds up to `Lookup`, which
resolves `NewAnalyzer` to a symbol of the wrong type. -/
def wWrongSig : PluginWorld Nat :=
  { userCurrent := Except.ok ("/home/u")
  , stat := fun _ => StatRes.ok
  , clone := fun _ _ => none
  , pull := fun _ => none
  , build := fun _ => ("", true)
  , pluginOpen := fun _ => Except.ok ⟨fun _ => Except.ok Sym.other⟩ }

/-- Counterexample to C4 as stated: with a wrong-typed `NewAnalyzer`
symbol, `newAnalyzers` panics (unchecked type assertion) instead of
returning an error to the caller. -/
theorem newAnalyzers_wrong_sig_cex :
    newAnalyzers wWrongSig ["github.com/x/y"] false = NAOut.panicked := rfl

/-- C5: for references whose cache directories exist, with the update
flag set and the `git pull` of each failing, `newAnalyzers` does not
return the pull failure: the loop proceeds with the existing local copy
(the assigned `err` is overwritten by the following `os.Stat` before
being checked), and when the entry point exists and every build and load
step succeeds the run returns the full analyzer slice with no error. -/
theorem newAnalyzers_pull_failure_nonfatal {α : Type} (w : PluginWorld α) (home : String)
    (links : List String) (G : String → Analyzer α)
    (hu : w.userCurrent = Except.ok home)
    (hstat : ∀ l ∈ links, w.stat (pluginDirOf home l) = StatRes.ok)
    (hpull : ∀ l ∈ links, (w.pull (pluginDirOf home l)).isSome = true)
    (hmain : ∀ l ∈ links, w.stat (pluginDirOf home l ++ "/main.go") = StatRes.ok)
    (hgood : ∀ l ∈ links, GoodFile w (mainPathOf home l) (fun _ => G l)) :
    newAnalyzers w links true = NAOut.ret (links.map G) none := by
  have hc : ∀ l ∈ links, CollectOk w (pluginsDirOf home) l := by
    intro l hl
    have h1 : w.stat (pluginsDirOf home ++ "/" ++ l) = StatRes.ok := hstat l hl
    refine ⟨?_, hmain l hl⟩
    rw [h1]
    trivial
  have hfun : (fun l => pluginsDirOf home ++ "/" ++ l ++ "/main.go") = mainPathOf home := rfl
  have hna : newAnalyzers w links true
      = (if (links.map (mainPathOf home)).length > 0
          then buildLoadAux w (links.map (mainPathOf home)) []
          else NAOut.ret [] none) := by
    simp only [newAnalyzers, hu]
    rw [collectFiles_ok w (pluginsDirOf home) true links hc, hfun]
  rw [hna]
  cases links with
  | nil => rfl
  | cons l₀ ls =>
    have hlen : (((l₀ :: ls).map (mainPathOf home)).length > 0) := by simp
    rw [if_pos hlen]
    have hfa : List.Forall₂ (fun fl g => GoodFile w fl (fun _ => g))
        ((l₀ :: ls).map (mainPathOf home)) ((l₀ :: ls).map G) :=
      forall₂_map_of_mem (mainPathOf home) G _ (l₀ :: ls)
        (fun l hl => hgood l hl)
    rw [buildLoadAux_good w _ _ hfa []]
    simp

/-- Plugin environment in which every cache directory exists, every
`git pull` fails, and every build and load succeeds with factory
`fun _ => anA`. -/
def wPullFail : PluginWorld Nat :=
  { userCurrent := Except.ok ("/home/u")
  , stat := fun _ => StatRes.ok
  , clone := fun _ _ => none
  , pull := fun _ => some ("connection reset by peer")
  , build := fun _ => ("", true)
  , pluginOpen := fun _ => Except.ok ⟨fun _ => Except.ok (Sym.factory (fun _ => anA))⟩ }

/-- Witness for `newAnalyzers_pull_failure_nonfatal` at a concrete
environment with one reference whose pull fails. -/
theorem newAnalyzers_pull_failure_nonfatal_witness :
    newAnalyzers wPullFail ["github.com/x/y"] true
      = NAOut.ret (["github.com/x/y"].map (fun _ => anA)) none :=
  newAnalyzers_pull_failure_nonfatal wPullFail ("/home/u") ["github.com/x/y"]
    (fun _ => anA) rfl
    (fun _ _ => rfl)
    (fun _ _ => rfl)
    (fun _ _ => rfl)
    (fun _ _ => ⟨rfl, ⟨⟨fun _ => Except.ok (Sym.factory (fun _ => anA))⟩, rfl, rfl⟩⟩)

end Gourmet
